import Mathlib

/-!
Verification of the in-memory publication data accumulator of
`src/publication-collector.js`.

Modelling choices (shallow embedding):

* A JavaScript object is modelled as an association list `Assoc K V`
  (first entry with a key wins on lookup; assignment updates the first
  matching entry in place and appends fresh keys, matching JS insertion
  order; `delete` removes the entry).  A field value may be the JS
  `undefined` sentinel, modelled as `none : Option Val`, so a document
  field mapping is `Assoc String (Option Val)`.
* The accumulator state `this._documents` is an association list from
  collection name to an association list from id to document.
* `_.extend(dest, src)` copies every binding of `src` into `dest` in
  order (including `undefined`-valued ones); `_.omit(fields, '_id')`
  is deletion of the `_id` key; `_.isEmpty` is emptiness of the list;
  `_.values` is the list of range values in entry order.
* `check(collection, String)` / `check(id, validMongoId)` only restrict
  the argument types; ids are modelled as `String` (every `String` is a
  valid Mongo id), so the error-free execution of the mutators is
  reflected by their totality.
* Object identity and in-place mutation (needed for the snapshot
  aliasing question) are modelled separately by a heap-passing variant
  `HState` in which documents live at numeric addresses.
-/

namespace PubColl

/-- An association list modelling a JavaScript object with keys `K` and
values `V`.  The first entry with a given key is the binding. -/
abbrev Assoc (K V : Type) : Type := List (K × V)

/-- Property read `m[k]`: the value of the first entry with key `k`,
`none` when the key is absent. -/
def alookup {K V : Type} [DecidableEq K] (m : Assoc K V) (k : K) : Option V :=
  match m with
  | [] => none
  | p :: rest => if p.1 = k then some p.2 else alookup rest k

/-- Property write `m[k] = v`: updates the first entry with key `k` in
place, or appends a new entry (JS insertion order). -/
def aset {K V : Type} [DecidableEq K] (m : Assoc K V) (k : K) (v : V) : Assoc K V :=
  match m with
  | [] => [(k, v)]
  | p :: rest => if p.1 = k then (k, v) :: rest else p :: aset rest k v

/-- Property deletion `delete m[k]`: drops the entry with key `k`
(removes every matching entry; JS objects never store a key twice). -/
def adel {K V : Type} [DecidableEq K] (m : Assoc K V) (k : K) : Assoc K V :=
  match m with
  | [] => []
  | p :: rest => if p.1 = k then adel rest k else p :: adel rest k

/-- Underscore's `_.extend(dest, src)`: copy every binding of `src` into
`dest` in order, overwriting existing keys (also copies bindings whose
value is the `undefined` sentinel, as in JS). -/
def extend {K V : Type} [DecidableEq K] (dest src : Assoc K V) : Assoc K V :=
  src.foldl (fun d p => aset d p.1 p.2) dest

/-- Opaque document field values (and document ids). -/
abbrev Val : Type := String

/-- A field slot of a JS object: `none` models the `undefined` sentinel,
`some v` a defined value. -/
abbrev FieldVal : Type := Option Val

/-- A document: field name to field value. -/
abbrev Doc : Type := Assoc String FieldVal

/-- One collection of `this._documents`: id to document. -/
abbrev Collection : Type := Assoc String Doc

/-- The accumulator state `this._documents`: collection name to
collection. -/
abbrev DocsState : Type := Assoc String Collection

/-- The shape produced by `_generateResponse`: collection name to list
of documents. -/
abbrev Snapshot : Type := Assoc String (List Doc)

set_option synthInstance.maxSize 512

instance : DecidableEq Collection := inferInstance

instance : DecidableEq DocsState := inferInstance

instance : DecidableEq Snapshot := inferInstance

/-- `_ensureCollectionInRes`:
`this._documents[collection] = this._documents[collection] || {}`. -/
def ensureCollectionInRes (s : DocsState) (collection : String) : DocsState :=
  aset s collection ((alookup s collection).getD [])

/-- The document value stored by `added` (line 145):
`_.extend({_id: id}, _.omit(fields, '_id'))`. -/
def addedDocument (id : String) (fields : Doc) : Doc :=
  extend [("_id", some id)] (adel fields "_id")

/-- `added(collection, id, fields)` (lines 138-147). -/
def added (s : DocsState) (collection id : String) (fields : Doc) : DocsState :=
  let s1 := ensureCollectionInRes s collection
  let col := (alookup s1 collection).getD []
  aset s1 collection (aset col id (addedDocument id fields))

/-- The net value of the document mutated by `changed` (lines 156-166):
extend with `fields` minus `_id`, then delete every key whose value in
`fields` is `undefined` (the loop iterates `fields`, so this includes
`_id`). -/
def changedDocument (existingDocument fields : Doc) : Doc :=
  fields.foldl
    (fun d p => if p.2 = (none : FieldVal) then adel d p.1 else d)
    (extend existingDocument (adel fields "_id"))

/-- `changed(collection, id, fields)` (lines 149-168).  When no document
is stored at `id` the body after `_ensureCollectionInRes` does nothing. -/
def changed (s : DocsState) (collection id : String) (fields : Doc) : DocsState :=
  let s1 := ensureCollectionInRes s collection
  let col := (alookup s1 collection).getD []
  match alookup col id with
  | none => s1
  | some existingDocument =>
    aset s1 collection (aset col id (changedDocument existingDocument fields))

/-- `removed(collection, id)` (lines 170-181): delete the document, then
delete the collection entry if it became empty. -/
def removed (s : DocsState) (collection id : String) : DocsState :=
  let s1 := ensureCollectionInRes s collection
  let col := (alookup s1 collection).getD []
  let col1 := adel col id
  if col1.isEmpty then adel s1 collection else aset s1 collection col1

/-- `_generateResponse` (lines 210-218): for each collection, the list
of its documents (`_.values`). -/
def generateResponse (s : DocsState) : Snapshot :=
  s.map (fun p => (p.1, p.2.map Prod.snd))

/-- One mutation call on the accumulator. -/
inductive Op : Type
  | add (collection id : String) (fields : Doc)
  | change (collection id : String) (fields : Doc)
  | remove (collection id : String)
deriving DecidableEq

/-- Apply one mutation call to the state. -/
def applyOp (s : DocsState) : Op → DocsState
  | .add c id f => added s c id f
  | .change c id f => changed s c id f
  | .remove c id => removed s c id

/-- Run a sequence of mutation calls from the initial empty state. -/
def runOps (ops : List Op) : DocsState := ops.foldl applyOp []

/-- The document map of one collection (empty when the collection is
absent). -/
def colDocs (s : DocsState) (collection : String) : Collection :=
  (alookup s collection).getD []

/-- The spec's data-model invariant: a collection name present in the
outer mapping has a non-empty inner mapping. -/
def Inv (s : DocsState) : Prop :=
  ∀ c col, alookup s c = some col → col ≠ []

/-! ### Spec-side fold for claim C1

These definitions follow the words of the spec / claim C1, not the
source; C1 compares the source's accumulator against a left fold with
these per-operation document-map transformers. -/

/-- Spec side, `added`: "stores a document whose fields are `fields`
with any id key in the input ignored and overwritten by the call's `id`
argument". -/
def specAddedDoc (id : String) (fields : Doc) : Doc :=
  extend [("_id", some id)] (adel fields "_id")

/-- Spec side, `changed`, as claim C1 literally words it: "merges
field-by-field with last-write-wins and deletes fields whose value is
the absent sentinel (undefined)" — every field of the payload merged,
including `_id`. -/
def specChangedDocOrig (existing fields : Doc) : Doc :=
  fields.foldl
    (fun d p => if p.2 = (none : FieldVal) then adel d p.1 else d)
    (extend existing fields)

/-- Spec side, `changed`, amended: merges field-by-field excluding the
`_id` key with last-write-wins, and deletes every field (including
`_id`) whose payload value is the absent sentinel. -/
def specChangedDocAm (existing fields : Doc) : Doc :=
  fields.foldl
    (fun d p => if p.2 = (none : FieldVal) then adel d p.1 else d)
    (extend existing (adel fields "_id"))

/-- One step of claim C1's fold (original literal wording) for the
documents of collection `c`: operations on other collections do not
touch `c`'s map; `changed` on an id with no document is a no-op (the
spec states this in §4.1). -/
def specStepOrig (c : String) (m : Assoc String Doc) : Op → Assoc String Doc
  | .add c' id f => if c' = c then aset m id (specAddedDoc id f) else m
  | .change c' id f =>
    if c' = c then
      match alookup m id with
      | none => m
      | some d => aset m id (specChangedDocOrig d f)
    else m
  | .remove c' id => if c' = c then adel m id else m

/-- One step of claim C1's fold with the amended `changed` merge. -/
def specStepAm (c : String) (m : Assoc String Doc) : Op → Assoc String Doc
  | .add c' id f => if c' = c then aset m id (specAddedDoc id f) else m
  | .change c' id f =>
    if c' = c then
      match alookup m id with
      | none => m
      | some d => aset m id (specChangedDocAm d f)
    else m
  | .remove c' id => if c' = c then adel m id else m

/-! ### Model of `_publishHandlerResult` (lines 87-136)

The model records the validator's observable outcome: the error raised
through `this.error` (which throws), the collection names on which
`_publishCursor` was invoked (in order), and whether `ready()` was
reached.  The `_ensureCollectionInRes` side effects on the accumulator
are not part of any claim and are left out of the outcome. -/

/-- A cursor (DataSource): its collection name
(`_getCollectionName()`), and whether its `_publishCursor` throws when
asked to begin streaming. -/
structure Cursor : Type where
  name : String
  publishFails : Bool
deriving DecidableEq

/-- An element of an array returned by a handler: a cursor, or some
truthy non-cursor value (the code only ever distinguishes these two
classes via `_isCursor`). -/
inductive RVal : Type
  | cursor (c : Cursor)
  | notCursor
deriving DecidableEq

/-- A handler return value as classified by the code: falsy, a single
cursor, an array, or any other truthy value. -/
inductive HandlerResult : Type
  | falsy
  | single (c : Cursor)
  | arr (vs : List RVal)
  | otherTruthy
deriving DecidableEq

/-- The errors `_publishHandlerResult` can raise. -/
inductive PubError : Type
  | nonCursorArray
  | duplicatePublish (collection : String)
  | invalidPublishResult
  | publishCursorFailed
deriving DecidableEq

/-- `_isCursor` on an array element. -/
def isCursorV : RVal → Bool
  | .cursor _ => true
  | .notCursor => false

/-- Extract the cursors of an array (equals the whole array when every
element is a cursor). -/
def extractCursors (vs : List RVal) : List Cursor :=
  vs.filterMap (fun v => match v with | RVal.cursor c => some c | RVal.notCursor => none)

/-- The duplicate-name scan of lines 100-112: walk the names in order
with the set of names seen so far; the first name already seen is the
duplicate reported. -/
def firstDupAux (seen : List String) : List String → Option String
  | [] => none
  | n :: rest => if n ∈ seen then some n else firstDupAux (n :: seen) rest

/-- The `cursors.forEach` publish loop of lines 124-127: invoke
`_publishCursor` on each cursor in order; a throw aborts the loop.
Returns the error (if any) and the names asked to begin streaming. -/
def runCursors : List Cursor → Option PubError × List String
  | [] => (none, [])
  | c :: rest =>
    if c.publishFails then (some PubError.publishCursorFailed, [c.name])
    else
      let r := runCursors rest
      (r.1, c.name :: r.2)

/-- A validator outcome that is a `duplicatePublish` failure raised
before any streaming: some duplicate name reported, no cursor was asked
to begin streaming, and `ready()` was not reached. -/
def dupFailureNoStreaming : Option PubError × List String × Bool → Prop
  | (some (PubError.duplicatePublish _), pub, rdy) => pub = [] ∧ rdy = false
  | _ => False

/-- `_publishHandlerResult(res)` (lines 87-136): classification of the
return value, duplicate detection, the publish loop, and `ready()`.
Result: (error raised, names on which `_publishCursor` was invoked,
whether `ready()` was called). -/
def publishHandlerResult : HandlerResult → Option PubError × List String × Bool
  | .falsy => (none, [], false)
  | .single c =>
    let r := runCursors [c]
    (r.1, r.2, r.1.isNone)
  | .otherTruthy => (some PubError.invalidPublishResult, [], false)
  | .arr vs =>
    if vs.all isCursorV then
      let cs := extractCursors vs
      match firstDupAux [] (cs.map Cursor.name) with
      | some n => (some (PubError.duplicatePublish n), [], false)
      | none =>
        let r := runCursors cs
        (r.1, r.2, r.1.isNone)
    else (some PubError.nonCursorArray, [], false)

/-! ### Timed model for the delay path of `collect` (lines 64-75)

The event timeline is exogenous: a chronologically ordered list of
timestamped mutation calls.  With no delay configured the promise
resolves with the snapshot computed when `ready()` fires; with a
non-zero `delayInMs` the listener regenerates the snapshot when the
timer fires, i.e. from the state at `readyTime + delay`. -/

/-- A mutation call together with the instant it is issued. -/
structure TimedOp : Type where
  time : Nat
  op : Op
deriving DecidableEq

/-- The accumulator state at instant `t`: all mutations issued up to
and including `t` have been applied. -/
def stateAt (t : Nat) (tops : List TimedOp) : DocsState :=
  runOps ((tops.filter (fun x => decide (x.time ≤ t))).map TimedOp.op)

/-- The snapshot `collect` delivers (lines 64-75): with `delayInMs`
falsy the snapshot computed at `ready()`; otherwise the snapshot
regenerated when the timer fires at `readyTime + delay`. -/
def deliveredSnapshot (readyTime delay : Nat) (tops : List TimedOp) : Snapshot :=
  if delay = 0 then generateResponse (stateAt readyTime tops)
  else generateResponse (stateAt (readyTime + delay) tops)

/-- Every mutation in the list is issued at or before instant `t`. -/
def allAtOrBefore (t : Nat) (l : List TimedOp) : Bool :=
  l.all (fun x => decide (x.time ≤ t))

/-- Every mutation in the list is issued strictly after instant `t`. -/
def allAfter (t : Nat) (l : List TimedOp) : Bool :=
  l.all (fun x => decide (t < x.time))

/-! ### Heap model for claim C5

Documents are JS objects: `added` allocates a fresh object,
`_generateResponse` hands out arrays of references to the stored
objects (`_.values`), and `changed` mutates the stored object in place
(`_.extend(existingDocument, ...)` and `delete existingDocument[key]`).
To reason about what a previously produced snapshot observes, the heap
of document objects is made explicit: documents live at numeric
addresses, and a snapshot holds addresses. -/

/-- Accumulator state with an explicit document-object heap. -/
structure HState : Type where
  heap : Assoc Nat Doc
  next : Nat
  docs : Assoc String (Assoc String Nat)
deriving DecidableEq

/-- The initial state: empty heap, empty `_documents`. -/
def hempty : HState := ⟨[], 0, []⟩

/-- `_ensureCollectionInRes` in the heap model. -/
def hensure (s : HState) (c : String) : HState :=
  { heap := s.heap, next := s.next
  , docs := aset s.docs c ((alookup s.docs c).getD []) }

/-- `added` in the heap model: allocates a fresh document object. -/
def hadded (s : HState) (c id : String) (fields : Doc) : HState :=
  let s1 := hensure s c
  let col := (alookup s1.docs c).getD []
  { heap := aset s1.heap s1.next (addedDocument id fields)
  , next := s1.next + 1
  , docs := aset s1.docs c (aset col id s1.next) }

/-- `changed` in the heap model: mutates the stored document object in
place — the address stays the same, the heap cell is overwritten. -/
def hchanged (s : HState) (c id : String) (fields : Doc) : HState :=
  let s1 := hensure s c
  let col := (alookup s1.docs c).getD []
  match alookup col id with
  | none => s1
  | some r =>
    let existingDocument := (alookup s1.heap r).getD []
    { heap := aset s1.heap r (changedDocument existingDocument fields)
    , next := s1.next, docs := s1.docs }

/-- `removed` in the heap model: only drops the reference (the heap is
untouched; JS garbage collection is unobservable). -/
def hremoved (s : HState) (c id : String) : HState :=
  let s1 := hensure s c
  let col := (alookup s1.docs c).getD []
  let col1 := adel col id
  if col1.isEmpty then { heap := s1.heap, next := s1.next, docs := adel s1.docs c }
  else { heap := s1.heap, next := s1.next, docs := aset s1.docs c col1 }

/-- One mutation call in the heap model. -/
inductive HOp : Type
  | add (collection id : String) (fields : Doc)
  | change (collection id : String) (fields : Doc)
  | remove (collection id : String)
deriving DecidableEq

/-- Whether a heap-model call is a `changed` call. -/
def isChange : HOp → Bool
  | .change _ _ _ => true
  | _ => false

/-- Whether a sequence of heap-model calls contains no `changed` call. -/
def noChange (ops : List HOp) : Bool :=
  ops.all (fun op => !(isChange op))

/-- Apply one heap-model mutation call. -/
def happly (s : HState) : HOp → HState
  | .add c id f => hadded s c id f
  | .change c id f => hchanged s c id f
  | .remove c id => hremoved s c id

/-- Run a sequence of heap-model mutation calls. -/
def hrun (s : HState) (ops : List HOp) : HState := ops.foldl happly s

/-- `_generateResponse` in the heap model: for each collection the array
of references to its document objects (`_.values` copies the array but
shares the objects). -/
def hsnapshot (s : HState) : Assoc String (List Nat) :=
  s.docs.map (fun p => (p.1, p.2.map Prod.snd))

/-- Reading a document object through its reference. -/
def derefDoc (h : Assoc Nat Doc) (r : Nat) : Doc := (alookup h r).getD []

/-- What a caller holding a snapshot observes under a given heap. -/
def derefAll (h : Assoc Nat Doc) (snap : Assoc String (List Nat)) :
    Assoc String (List Doc) :=
  snap.map (fun p => (p.1, p.2.map (derefDoc h)))

/-- Heap-model well-formedness: every stored reference is below the
allocation counter. -/
def refsBounded (s : HState) : Prop :=
  ∀ p ∈ s.docs, ∀ q ∈ p.2, q.2 < s.next

/-! ### Lemmas about the association-list operations -/

theorem alookup_aset_self {K V : Type} [DecidableEq K] (m : Assoc K V) (k : K) (v : V) :
    alookup (aset m k v) k = some v := by
  induction m with
  | nil => simp [aset, alookup]
  | cons p rest ih =>
    by_cases h : p.1 = k
    · simp [aset, h, alookup]
    · simp [aset, h, alookup, ih]

theorem alookup_aset_ne {K V : Type} [DecidableEq K] (m : Assoc K V) (k k' : K) (v : V)
    (h : k' ≠ k) : alookup (aset m k v) k' = alookup m k' := by
  induction m with
  | nil => simp [aset, alookup, Ne.symm h]
  | cons p rest ih =>
    by_cases hp : p.1 = k
    · subst hp
      simp [aset, alookup, Ne.symm h]
    · simp only [aset, if_neg hp, alookup]
      by_cases hp' : p.1 = k'
      · simp [hp']
      · simp [hp', ih]

theorem alookup_adel_self {K V : Type} [DecidableEq K] (m : Assoc K V) (k : K) :
    alookup (adel m k) k = none := by
  induction m with
  | nil => simp [adel, alookup]
  | cons p rest ih =>
    by_cases h : p.1 = k
    · simpa [adel, h] using ih
    · simpa [adel, h, alookup] using ih

theorem alookup_adel_ne {K V : Type} [DecidableEq K] (m : Assoc K V) (k k' : K)
    (h : k' ≠ k) : alookup (adel m k) k' = alookup m k' := by
  induction m with
  | nil => simp [adel]
  | cons p rest ih =>
    by_cases hp : p.1 = k
    · subst hp
      simpa [adel, alookup, Ne.symm h] using ih
    · by_cases hp' : p.1 = k'
      · simp [adel, hp, alookup, hp', h]
      · simpa [adel, hp, alookup, hp'] using ih

theorem alookup_eq_none_iff {K V : Type} [DecidableEq K] (m : Assoc K V) (k : K) :
    alookup m k = none ↔ ∀ p ∈ m, p.1 ≠ k := by
  induction m with
  | nil => simp [alookup]
  | cons p rest ih =>
    by_cases h : p.1 = k
    · simp [alookup, h]
    · simp [alookup, h, ih]

theorem adel_eq_self {K V : Type} [DecidableEq K] (m : Assoc K V) (k : K)
    (h : alookup m k = none) : adel m k = m := by
  induction m with
  | nil => simp [adel]
  | cons p rest ih =>
    simp only [alookup] at h
    by_cases hp : p.1 = k
    · simp [hp] at h
    · simp only [if_neg hp] at h
      simp [adel, hp, ih h]

theorem aset_eq_self {K V : Type} [DecidableEq K] (m : Assoc K V) (k : K) (v : V)
    (h : alookup m k = some v) : aset m k v = m := by
  induction m with
  | nil => simp [alookup] at h
  | cons p rest ih =>
    by_cases hp : p.1 = k
    · subst hp
      simp only [alookup, if_pos rfl] at h
      have hv := Option.some.inj h
      subst hv
      simp [aset]
    · simp only [alookup, if_neg hp] at h
      simp [aset, hp, ih h]

theorem adel_aset_absent {K V : Type} [DecidableEq K] (m : Assoc K V) (k : K) (v : V)
    (h : alookup m k = none) : adel (aset m k v) k = m := by
  induction m with
  | nil => simp [aset, adel]
  | cons p rest ih =>
    simp only [alookup] at h
    by_cases hp : p.1 = k
    · simp [hp] at h
    · simp only [if_neg hp] at h
      simp [aset, hp, adel, ih h]

theorem alookup_mem {K V : Type} [DecidableEq K] (m : Assoc K V) (k : K) (v : V)
    (h : alookup m k = some v) : (k, v) ∈ m := by
  induction m with
  | nil => simp [alookup] at h
  | cons p rest ih =>
    by_cases hp : p.1 = k
    · subst hp
      simp only [alookup, if_pos rfl] at h
      have hv := Option.some.inj h
      subst hv
      simp
    · simp only [alookup, if_neg hp] at h
      exact List.mem_cons_of_mem p (ih h)

theorem aset_ne_nil {K V : Type} [DecidableEq K] (m : Assoc K V) (k : K) (v : V) :
    aset m k v ≠ [] := by
  cases m with
  | nil => simp [aset]
  | cons p rest =>
    by_cases hp : p.1 = k
    · simp [aset, hp]
    · simp [aset, hp]

theorem alookup_map_snd {K V W : Type} [DecidableEq K] (m : Assoc K V) (f : V → W) (k : K) :
    alookup (m.map (fun p => (p.1, f p.2))) k = (alookup m k).map f := by
  induction m with
  | nil => simp [alookup]
  | cons p rest ih =>
    by_cases hp : p.1 = k
    · simp [alookup, hp]
    · simp [alookup, hp, ih]

/-! ### Lemmas about the accumulator operations -/

theorem alookup_ensure_self (s : DocsState) (c : String) :
    alookup (ensureCollectionInRes s c) c = some (colDocs s c) := by
  simp [ensureCollectionInRes, alookup_aset_self, colDocs]

theorem alookup_ensure_ne (s : DocsState) (c c' : String) (h : c' ≠ c) :
    alookup (ensureCollectionInRes s c) c' = alookup s c' := by
  simp [ensureCollectionInRes, alookup_aset_ne _ _ _ _ h]

theorem ensure_of_present (s : DocsState) (c : String) (col : Collection)
    (h : alookup s c = some col) : ensureCollectionInRes s c = s := by
  simp only [ensureCollectionInRes, h, Option.getD_some]
  exact aset_eq_self s c col h

theorem colDocs_ensure_self (s : DocsState) (c : String) :
    colDocs (ensureCollectionInRes s c) c = colDocs s c := by
  simp [colDocs, alookup_ensure_self]

theorem colDocs_added_self (s : DocsState) (c id : String) (f : Doc) :
    colDocs (added s c id f) c = aset (colDocs s c) id (addedDocument id f) := by
  simp only [added, colDocs, alookup_aset_self, Option.getD_some, alookup_ensure_self]

theorem alookup_added_ne (s : DocsState) (c id : String) (f : Doc) (c' : String)
    (h : c' ≠ c) : alookup (added s c id f) c' = alookup s c' := by
  simp only [added]
  rw [alookup_aset_ne _ _ _ _ h, alookup_ensure_ne _ _ _ h]

theorem changed_of_absent (s : DocsState) (c id : String) (f : Doc)
    (h : alookup (colDocs s c) id = none) :
    changed s c id f = ensureCollectionInRes s c := by
  simp only [changed, alookup_ensure_self, Option.getD_some, h]

theorem colDocs_changed_some (s : DocsState) (c id : String) (f : Doc) (d : Doc)
    (h : alookup (colDocs s c) id = some d) :
    colDocs (changed s c id f) c = aset (colDocs s c) id (changedDocument d f) := by
  simp only [changed, alookup_ensure_self, Option.getD_some, h]
  simp only [colDocs, alookup_aset_self, Option.getD_some]

theorem alookup_changed_ne (s : DocsState) (c id : String) (f : Doc) (c' : String)
    (h : c' ≠ c) : alookup (changed s c id f) c' = alookup s c' := by
  simp only [changed, alookup_ensure_self, Option.getD_some]
  cases halt : alookup (colDocs s c) id with
  | none => simp only [alookup_ensure_ne _ _ _ h]
  | some d => rw [alookup_aset_ne _ _ _ _ h, alookup_ensure_ne _ _ _ h]

theorem colDocs_removed_self (s : DocsState) (c id : String) :
    colDocs (removed s c id) c = adel (colDocs s c) id := by
  simp only [removed, alookup_ensure_self, Option.getD_some]
  by_cases he : (adel (colDocs s c) id).isEmpty = true
  · rw [if_pos he]
    have hnil : adel (colDocs s c) id = [] := List.isEmpty_iff.1 he
    rw [hnil]
    simp [colDocs, alookup_adel_self]
  · rw [if_neg he]
    simp [colDocs, alookup_aset_self]

theorem alookup_removed_ne (s : DocsState) (c id : String) (c' : String)
    (h : c' ≠ c) : alookup (removed s c id) c' = alookup s c' := by
  simp only [removed]
  split
  · rw [alookup_adel_ne _ _ _ h, alookup_ensure_ne _ _ _ h]
  · rw [alookup_aset_ne _ _ _ _ h, alookup_ensure_ne _ _ _ h]

theorem specAddedDoc_eq : specAddedDoc = addedDocument := rfl

theorem specChangedDocAm_eq : specChangedDocAm = changedDocument := rfl

/-- The per-collection document map after one accumulator call equals
one step of the (amended) spec fold. -/
theorem colDocs_applyOp (s : DocsState) (op : Op) (c : String) :
    colDocs (applyOp s op) c = specStepAm c (colDocs s c) op := by
  cases op with
  | add c' id f =>
    by_cases h : c' = c
    · subst h
      simp [applyOp, specStepAm, colDocs_added_self, specAddedDoc_eq]
    · simp only [applyOp, specStepAm, if_neg h, colDocs,
        alookup_added_ne _ _ _ _ _ (Ne.symm h)]
  | change c' id f =>
    by_cases h : c' = c
    · subst h
      cases halt : alookup (colDocs s c') id with
      | none =>
        simp [applyOp, specStepAm, halt,
          changed_of_absent _ _ _ _ halt, colDocs_ensure_self]
      | some d =>
        simp [applyOp, specStepAm, halt,
          colDocs_changed_some _ _ _ _ _ halt, specChangedDocAm_eq]
    · simp only [applyOp, specStepAm, if_neg h, colDocs,
        alookup_changed_ne _ _ _ _ _ (Ne.symm h)]
  | remove c' id =>
    by_cases h : c' = c
    · subst h
      simp [applyOp, specStepAm, colDocs_removed_self]
    · simp only [applyOp, specStepAm, if_neg h, colDocs,
        alookup_removed_ne _ _ _ _ (Ne.symm h)]

/-- Folding the mutation calls through the accumulator and folding the
spec steps over the collection's document map agree. -/
theorem colDocs_foldl (ops : List Op) (s : DocsState) (c : String) :
    colDocs (ops.foldl applyOp s) c = ops.foldl (specStepAm c) (colDocs s c) := by
  induction ops generalizing s with
  | nil => rfl
  | cons op rest ih =>
    rw [List.foldl_cons, List.foldl_cons, ih, colDocs_applyOp]

theorem alookup_generateResponse (s : DocsState) (c : String) :
    alookup (generateResponse s) c = (alookup s c).map (fun col => col.map Prod.snd) := by
  exact alookup_map_snd s (fun col => col.map Prod.snd) c

/-- The snapshot's document list of a collection is the value list of
the collection's document map. -/
theorem snapshotDocs_eq (s : DocsState) (c : String) :
    (alookup (generateResponse s) c).getD [] = (colDocs s c).map Prod.snd := by
  rw [alookup_generateResponse]
  unfold colDocs
  cases alookup s c <;> simp

/-- Entry-wise non-emptiness gives the lookup-phrased invariant. -/
theorem inv_of_entries (s : DocsState) (h : ∀ p ∈ s, p.2 ≠ []) : Inv s :=
  fun c col hc => h (c, col) (alookup_mem s c col hc)

theorem alookup_added_self (s : DocsState) (c id : String) (f : Doc) :
    alookup (added s c id f) c
      = some (aset (colDocs s c) id (addedDocument id f)) := by
  simp only [added, alookup_aset_self, alookup_ensure_self, Option.getD_some]

theorem alookup_changed_some_self (s : DocsState) (c id : String) (f : Doc) (d : Doc)
    (h : alookup (colDocs s c) id = some d) :
    alookup (changed s c id f) c
      = some (aset (colDocs s c) id (changedDocument d f)) := by
  simp only [changed, alookup_ensure_self, Option.getD_some, h, alookup_aset_self]

/-! ### Lemmas about the heap model -/

theorem happly_next_mono (s : HState) (op : HOp) : s.next ≤ (happly s op).next := by
  cases op with
  | add c id f => exact Nat.le_succ s.next
  | change c id f =>
    simp only [happly, hchanged, hensure]
    cases alookup ((alookup (aset s.docs c ((alookup s.docs c).getD [])) c).getD []) id
    · exact Nat.le_refl _
    · exact Nat.le_refl _
  | remove c id =>
    simp only [happly, hremoved, hensure]
    split
    · exact Nat.le_refl _
    · exact Nat.le_refl _

theorem happly_heap_agrees (s : HState) (op : HOp) (hnc : isChange op = false)
    (r : Nat) (hr : r < s.next) :
    alookup (happly s op).heap r = alookup s.heap r := by
  cases op with
  | add c id f =>
    simp only [happly, hadded, hensure]
    exact alookup_aset_ne _ _ _ _ (Nat.ne_of_lt hr)
  | change c id f => simp [isChange] at hnc
  | remove c id =>
    simp only [happly, hremoved, hensure]
    split
    · rfl
    · rfl

theorem hrun_heap_agrees (s : HState) (ops : List HOp)
    (hnc : noChange ops = true) (r : Nat) (hr : r < s.next) :
    alookup (hrun s ops).heap r = alookup s.heap r := by
  induction ops generalizing s with
  | nil => rfl
  | cons op rest ih =>
    have hall := List.all_eq_true.1 hnc
    have h1 : isChange op = false := by
      simpa using hall op (List.mem_cons_self op rest)
    have h2 : noChange rest = true :=
      List.all_eq_true.2 (fun o ho => hall o (List.mem_cons_of_mem _ ho))
    have hr' : r < (happly s op).next := Nat.lt_of_lt_of_le hr (happly_next_mono s op)
    calc alookup (hrun (happly s op) rest).heap r
        = alookup (happly s op).heap r := ih (happly s op) h2 hr'
      _ = alookup s.heap r := happly_heap_agrees s op h1 r hr

/-! ### Lemmas about the result validator -/

theorem firstDupAux_eq_none (seen : List String) (l : List String)
    (h : firstDupAux seen l = none) : l.Nodup ∧ ∀ a ∈ l, a ∉ seen := by
  induction l generalizing seen with
  | nil => simp
  | cons n rest ih =>
    by_cases hn : n ∈ seen
    · simp [firstDupAux, hn] at h
    · simp only [firstDupAux, if_neg hn] at h
      obtain ⟨hnd, hdisj⟩ := ih (n :: seen) h
      refine ⟨List.nodup_cons.2 ⟨?_, hnd⟩, ?_⟩
      · intro hmem
        exact (hdisj n hmem) (List.mem_cons_self n seen)
      · intro a ha
        rcases List.mem_cons.1 ha with rfl | ha'
        · exact hn
        · intro hs
          exact (hdisj a ha') (List.mem_cons_of_mem _ hs)

theorem extractCursors_map (cs : List Cursor) :
    extractCursors (cs.map RVal.cursor) = cs := by
  induction cs with
  | nil => rfl
  | cons c rest ih =>
    simp only [List.map_cons, extractCursors, List.filterMap_cons]
    simp [extractCursors] at ih
    simp [ih]

theorem all_isCursorV_map (cs : List Cursor) :
    (cs.map RVal.cursor).all isCursorV = true := by
  induction cs with
  | nil => rfl
  | cons c rest ih => simp [isCursorV, ih]

/-! ### The claims -/

/-- C1 (amended): for every finite sequence of `added`/`changed`/
`removed` calls, each collection's document map in the accumulator — and
hence the snapshot's document list for that collection — equals the
left fold of the sequence over an empty document map, where `added`
overwrites the document at its id with the id-stamped payload, `changed`
merges field-by-field excluding the `_id` key with last-write-wins and
deletes every field (including `_id`) whose payload value is the absent
sentinel (a `changed` on an id with no document is a no-op), and
`removed` deletes the document at its id, so an id never re-added
afterwards is absent. -/
theorem C1_snapshot_eq_spec_fold (ops : List Op) (c : String) :
    colDocs (runOps ops) c = ops.foldl (specStepAm c) []
    ∧ (alookup (generateResponse (runOps ops)) c).getD []
        = (ops.foldl (specStepAm c) []).map Prod.snd := by
  have h : colDocs (runOps ops) c = ops.foldl (specStepAm c) [] := by
    have h0 := colDocs_foldl ops [] c
    simpa [colDocs, alookup] using h0
  exact ⟨h, by rw [snapshotDocs_eq, h]⟩

/-- C1, counterexample to the claim as literally stated: with `changed`
merging every field including `_id` (the literal "merges field-by-field
with last-write-wins"), the fold and the code disagree on the payload
`[("_id", some "y")]`: the code keeps the stored `_id` value `"x"`, the
literal fold overwrites it with `"y"`; each side's collection holds a
single document and the two documents differ at the `_id` field, so the
document sets differ. -/
theorem C1_counterexample :
    colDocs (runOps [Op.add "c" "x" [], Op.change "c" "x" [("_id", some "y")]]) "c"
      = [("x", [("_id", some "x")])]
    ∧ [Op.add "c" "x" [], Op.change "c" "x" [("_id", some "y")]].foldl (specStepOrig "c") []
      = [("x", [("_id", some "y")])]
    ∧ alookup [("_id", (some "x" : FieldVal))] "_id"
        ≠ alookup [("_id", (some "y" : FieldVal))] "_id" := by decide

/-- C2 (amended): `changed` on an id with no current document raises no
error and stores nothing: its entire effect is the ensure step, so if
the collection already exists the state (hence the snapshot) is
unchanged; if the collection does not exist, an empty collection entry
is created (which shows up in the snapshot as an empty list, as the
counterexample records). -/
theorem C2_changed_missing_id_effect (s : DocsState) (c id : String) (f : Doc)
    (h : alookup (colDocs s c) id = none) :
    changed s c id f = ensureCollectionInRes s c
    ∧ ((alookup s c).isSome = true → changed s c id f = s) := by
  refine ⟨changed_of_absent s c id f h, ?_⟩
  intro hs
  rw [changed_of_absent s c id f h]
  obtain ⟨col, hc⟩ := Option.isSome_iff_exists.1 hs
  exact ensure_of_present s c col hc

theorem C2_witness :
    alookup (colDocs [("a", [("1", [("_id", some "1")])])] "a") "2" = none
    ∧ (changed [("a", [("1", [("_id", some "1")])])] "a" "2" [("x", some "v")]
        = ensureCollectionInRes [("a", [("1", [("_id", some "1")])])] "a"
      ∧ ((alookup [("a", [("1", [("_id", some "1")])])] "a").isSome = true →
          changed [("a", [("1", [("_id", some "1")])])] "a" "2" [("x", some "v")]
            = [("a", [("1", [("_id", some "1")])])])) :=
  ⟨by decide, C2_changed_missing_id_effect _ "a" "2" _ (by decide)⟩

/-- C2, counterexample to the claim as stated: `changed` on a
non-existent id of a non-existent collection does change the snapshot —
a new collection key appears, mapped to an empty list. -/
theorem C2_counterexample :
    generateResponse (changed [] "c" "1" [("a", some "v")]) = [("c", [])]
    ∧ generateResponse ([] : DocsState) = []
    ∧ alookup (generateResponse (changed [] "c" "1" [("a", some "v")])) "c" = some []
    ∧ alookup (generateResponse ([] : DocsState)) "c" = none := by decide

/-- C3 (amended): `added` and `removed` always preserve the
presence-implies-non-emptiness invariant, and `changed` preserves it
whenever the target collection name is already present; (`changed` with
an absent collection name creates an empty entry and breaks it, as the
counterexample shows). -/
theorem C3_invariant_preservation :
    (∀ s c id f, Inv s → Inv (added s c id f))
    ∧ (∀ s c id, Inv s → Inv (removed s c id))
    ∧ (∀ s c id f, Inv s → (alookup s c).isSome = true → Inv (changed s c id f)) := by
  refine ⟨?_, ?_, ?_⟩
  · intro s c id f hinv c' col' h'
    by_cases hc : c' = c
    · subst hc
      rw [alookup_added_self] at h'
      have := Option.some.inj h'
      subst this
      exact aset_ne_nil _ _ _
    · rw [alookup_added_ne _ _ _ _ _ hc] at h'
      exact hinv c' col' h'
  · intro s c id hinv c' col' h'
    by_cases hc : c' = c
    · subst hc
      simp only [removed, alookup_ensure_self, Option.getD_some] at h'
      by_cases he : (adel (colDocs s c') id).isEmpty = true
      · rw [if_pos he, alookup_adel_self] at h'
        exact nomatch h'
      · rw [if_neg he, alookup_aset_self] at h'
        have := Option.some.inj h'
        subst this
        intro hnil
        exact he (by simp [hnil])
    · rw [alookup_removed_ne _ _ _ _ hc] at h'
      exact hinv c' col' h'
  · intro s c id f hinv hs c' col' h'
    by_cases hc : c' = c
    · subst hc
      cases halt : alookup (colDocs s c') id with
      | none =>
        rw [changed_of_absent _ _ _ _ halt] at h'
        obtain ⟨col, hcol⟩ := Option.isSome_iff_exists.1 hs
        rw [ensure_of_present s c' col hcol] at h'
        exact hinv c' col' h'
      | some d =>
        rw [alookup_changed_some_self _ _ _ _ _ halt] at h'
        have := Option.some.inj h'
        subst this
        exact aset_ne_nil _ _ _
    · rw [alookup_changed_ne _ _ _ _ _ hc] at h'
      exact hinv c' col' h'

theorem C3_witness :
    Inv (added [] "a" "1" []) ∧ Inv (removed [] "a" "1")
    ∧ Inv (changed [("a", [("1", [])])] "a" "2" []) :=
  ⟨C3_invariant_preservation.1 [] "a" "1" [] (fun _ _ h => nomatch h),
   C3_invariant_preservation.2.1 [] "a" "1" (fun _ _ h => nomatch h),
   C3_invariant_preservation.2.2 [("a", [("1", [])])] "a" "2" []
     (inv_of_entries _ (by decide)) (by decide)⟩

/-- C3, counterexample to the claim as stated: the empty state satisfies
the invariant, but a single `changed` call with a fresh collection name
leaves an empty collection entry behind, violating it. -/
theorem C3_counterexample :
    Inv ([] : DocsState) ∧ ¬ Inv (changed [] "c" "1" []) := by
  constructor
  · intro c col h
    exact nomatch h
  · intro h
    exact (h "c" [] (by decide)) rfl

/-- C4: the code deletes the `_id` key. `added('c','1',{})` stores the
document `{_id: '1'}`; `changed('c','1',{_id: undefined})` then removes
the `_id` field, because the deletion loop of lines 162-166 iterates
`fields` (not `fieldsNoId`) and has no `_id` exception — contradicting
the code's own comment "Delete all keys that were undefined in fields
(except _id)" and the spec's "The `id` key is never altered by this
merge". -/
theorem C4_changed_deletes_id_field :
    colDocs (added [] "c" "1" []) "c" = [("1", [("_id", some "1")])]
    ∧ colDocs (changed (added [] "c" "1" []) "c" "1" [("_id", (none : FieldVal))]) "c"
        = [("1", [])] := by decide

/-- C5 (amended): a snapshot's structure is a value — later mutations
never change which references it lists — and any sequence of subsequent
calls containing no `changed` call leaves every document the snapshot
dereferences unchanged; (a subsequent `changed` call mutates a stored
document object in place and therefore retroactively alters a
previously produced snapshot, as the counterexample shows). -/
theorem C5_snapshot_stable_without_changed (s : HState) (ops : List HOp)
    (hnc : noChange ops = true) (hb : refsBounded s) :
    derefAll (hrun s ops).heap (hsnapshot s) = derefAll s.heap (hsnapshot s) := by
  unfold derefAll hsnapshot
  rw [List.map_map, List.map_map]
  refine List.map_congr_left ?_
  intro p hp
  simp only [Function.comp]
  rw [List.map_map, List.map_map]
  refine congrArg (fun l => (p.1, l)) ?_
  refine List.map_congr_left ?_
  intro q hq
  simp only [Function.comp, derefDoc]
  rw [hrun_heap_agrees s ops hnc q.2 (hb p hp q hq)]

theorem C5_witness :
    noChange [HOp.remove "c" "1"] = true
    ∧ refsBounded (hadded hempty "c" "1" [])
    ∧ derefAll (hrun (hadded hempty "c" "1" []) [HOp.remove "c" "1"]).heap
        (hsnapshot (hadded hempty "c" "1" []))
      = derefAll (hadded hempty "c" "1" []).heap (hsnapshot (hadded hempty "c" "1" [])) :=
  ⟨by decide, by unfold refsBounded ; decide,
   C5_snapshot_stable_without_changed _ _ (by decide) (by unfold refsBounded ; decide)⟩

/-- C5, counterexample to the claim as stated: the snapshot taken after
`added('c','1',{})` holds a reference to the stored document object;
the later call `changed('c','1',{a:'v'})` mutates that object in place,
so what the snapshot holder observes changes retroactively. -/
theorem C5_counterexample :
    hsnapshot (hadded hempty "c" "1" []) = [("c", [0])]
    ∧ derefAll (hadded hempty "c" "1" []).heap [("c", [0])]
        = [("c", [[("_id", some "1")]])]
    ∧ derefAll (hchanged (hadded hempty "c" "1" []) "c" "1" [("a", some "v")]).heap
        [("c", [0])]
        = [("c", [[("_id", some "1"), ("a", some "v")]])]
    ∧ derefAll (hchanged (hadded hempty "c" "1" []) "c" "1" [("a", some "v")]).heap
        [("c", [0])]
        ≠ derefAll (hadded hempty "c" "1" []).heap [("c", [0])] := by decide

/-- C6: starting from a state in which collection `c` holds exactly the
one document at `id` (for instance right after `added` on a state
without that collection, as the witness instantiates), `removed(c, id)`
yields a snapshot in which the collection key is entirely absent. -/
theorem C6_remove_only_document_drops_collection (s : DocsState) (c id : String)
    (d : Doc) (h : colDocs s c = [(id, d)]) :
    alookup (generateResponse (removed s c id)) c = none := by
  rw [alookup_generateResponse]
  have hh : alookup (removed s c id) c = none := by
    simp only [removed, alookup_ensure_self, Option.getD_some, h]
    have hnil : adel [(id, d)] id = [] := by simp [adel]
    rw [hnil]
    simp [alookup_adel_self]
  rw [hh]
  rfl

theorem C6_witness :
    colDocs (added [] "c" "1" [("x", some "v")]) "c"
      = [("1", [("_id", some "1"), ("x", some "v")])]
    ∧ alookup
        (generateResponse (removed (added [] "c" "1" [("x", some "v")]) "c" "1")) "c"
      = none :=
  ⟨by decide,
   C6_remove_only_document_drops_collection _ "c" "1"
     [("_id", some "1"), ("x", some "v")] (by decide)⟩

/-- C7 (amended): for every handler return value that is a sequence of
DataSources containing two that declare the same collection name —
whatever their streaming behaviour — result validation fails with the
`DuplicatePublish` error before any source is asked to begin streaming
and before `ready()`; (a sequence that also contains a non-DataSource
element instead fails with the array-of-non-DataSources error, as the
counterexample shows). -/
theorem C7_duplicate_collection_names (cs : List Cursor)
    (h : ¬ (cs.map Cursor.name).Nodup) :
    dupFailureNoStreaming (publishHandlerResult (.arr (cs.map RVal.cursor))) := by
  cases hfd : firstDupAux [] (cs.map Cursor.name) with
  | none => exact absurd (firstDupAux_eq_none [] _ hfd).1 h
  | some n =>
    have hres : publishHandlerResult (.arr (cs.map RVal.cursor))
        = (some (PubError.duplicatePublish n), [], false) := by
      simp [publishHandlerResult, all_isCursorV_map, extractCursors_map, hfd]
    rw [hres]
    exact ⟨rfl, rfl⟩

theorem C7_witness :
    ¬ ([Cursor.mk "a" false, Cursor.mk "a" true].map Cursor.name).Nodup
    ∧ dupFailureNoStreaming
        (publishHandlerResult
          (.arr ([Cursor.mk "a" false, Cursor.mk "a" true].map RVal.cursor))) :=
  ⟨by decide, C7_duplicate_collection_names _ (by decide)⟩

/-- C7, counterexample to the claim as literally stated: a sequence that
contains two DataSources with the same name but also a non-DataSource
element fails with the array-of-non-DataSources error (the `reduce`
check of lines 95-99 runs before the duplicate scan), not with
`DuplicatePublish`. -/
theorem C7_counterexample :
    publishHandlerResult
        (.arr [RVal.cursor (Cursor.mk "a" false), RVal.cursor (Cursor.mk "a" false),
               RVal.notCursor])
      = (some PubError.nonCursorArray, [], false) := by decide

/-- C8: a truthy handler return value that is neither a DataSource nor
a sequence fails with the invalid-publish-result error, with no source
asked to begin streaming and no `ready()`; a falsy return value raises
no error and attaches no sources. -/
theorem C8_invalid_and_falsy_results :
    publishHandlerResult .otherTruthy
      = (some PubError.invalidPublishResult, [], false)
    ∧ publishHandlerResult .falsy = (none, [], false) := by decide

/-- C9: with a non-zero `delayInMs`, the delivered snapshot is the one
regenerated when the timer fires: every mutation issued between
`ready()` and the delay's expiry is applied in it, and no mutation
issued strictly after the expiry is — the delivered snapshot is exactly
that of the state reached by the mutations up to the expiry. -/
theorem C9_delay_window_snapshot (pre mid post : List TimedOp) (readyTime delay : Nat)
    (hd : delay ≠ 0)
    (hpre : allAtOrBefore readyTime pre = true)
    (_hmid1 : allAfter readyTime mid = true)
    (hmid2 : allAtOrBefore (readyTime + delay) mid = true)
    (hpost : allAfter (readyTime + delay) post = true) :
    deliveredSnapshot readyTime delay (pre ++ mid ++ post)
      = generateResponse (runOps ((pre ++ mid).map TimedOp.op)) := by
  have hpre' : ∀ x ∈ pre, decide (x.time ≤ readyTime + delay) = true := by
    intro x hx
    have := List.all_eq_true.1 hpre x hx
    simp only [decide_eq_true_eq] at this ⊢
    exact Nat.le_trans this (Nat.le_add_right _ _)
  have hmid' : ∀ x ∈ mid, decide (x.time ≤ readyTime + delay) = true := by
    intro x hx
    exact List.all_eq_true.1 hmid2 x hx
  have hpost' : ∀ x ∈ post, ¬ decide (x.time ≤ readyTime + delay) = true := by
    intro x hx
    have := List.all_eq_true.1 hpost x hx
    simp only [decide_eq_true_eq] at this ⊢
    exact Nat.not_le_of_lt this
  simp only [deliveredSnapshot, if_neg hd, stateAt]
  rw [List.filter_append, List.filter_append,
    List.filter_eq_self.2 hpre', List.filter_eq_self.2 hmid']
  rw [List.filter_eq_nil_iff.2 ?hp]
  case hp =>
    intro x hx
    simpa using hpost' x hx
  rw [List.append_nil]

theorem C9_witness :
    (7 : Nat) ≠ 0
    ∧ allAtOrBefore 3 [TimedOp.mk 0 (Op.add "c" "1" [])] = true
    ∧ allAfter 3 [TimedOp.mk 5 (Op.add "c" "2" [])] = true
    ∧ allAtOrBefore 10 [TimedOp.mk 5 (Op.add "c" "2" [])] = true
    ∧ allAfter 10 [TimedOp.mk 11 (Op.remove "c" "1")] = true
    ∧ deliveredSnapshot 3 7
        ([TimedOp.mk 0 (Op.add "c" "1" [])] ++ [TimedOp.mk 5 (Op.add "c" "2" [])]
          ++ [TimedOp.mk 11 (Op.remove "c" "1")])
      = generateResponse (runOps
          (([TimedOp.mk 0 (Op.add "c" "1" [])]
            ++ [TimedOp.mk 5 (Op.add "c" "2" [])]).map TimedOp.op)) :=
  ⟨by decide, by decide, by decide, by decide, by decide,
   C9_delay_window_snapshot _ _ _ 3 7 (by decide) (by decide) (by decide)
     (by decide) (by decide)⟩

/-- C10 (amended): on a state satisfying the presence-implies-non-empty
invariant, `removed(c, id)` with the collection absent, or present but
holding no document at `id`, raises no error and leaves the state
exactly equal to its prior value — the entry the ensure step creates is
deleted again; (on a present-but-empty collection entry, which the
invariant excludes but which is reachable via `changed`, `removed`
deletes that entry, as the counterexample shows). -/
theorem C10_removed_noop_on_missing (s : DocsState) (c id : String)
    (hinv : Inv s) (h : alookup (colDocs s c) id = none) :
    removed s c id = s := by
  cases hc : alookup s c with
  | none =>
    have hcol : colDocs s c = [] := by simp [colDocs, hc]
    simp only [removed, alookup_ensure_self, Option.getD_some, hcol]
    have hnil : adel ([] : Collection) id = [] := rfl
    rw [hnil]
    simp only [List.isEmpty_nil, if_true]
    unfold ensureCollectionInRes
    rw [hc]
    exact adel_aset_absent s c _ hc
  | some col =>
    have hens : ensureCollectionInRes s c = s := ensure_of_present s c col hc
    have hcol : colDocs s c = col := by simp [colDocs, hc]
    have hadel : adel col id = col := adel_eq_self col id (by rwa [hcol] at h)
    have hcolne : col ≠ [] := hinv c col hc
    simp only [removed, alookup_ensure_self, Option.getD_some, hcol, hadel]
    have hie : col.isEmpty = false := by
      cases col with
      | nil => exact absurd rfl hcolne
      | cons p rest => rfl
    rw [hie]
    simp only [Bool.false_eq_true, if_false]
    rw [hens]
    exact aset_eq_self s c col hc

theorem C10_witness :
    Inv [("a", [("1", [])])]
    ∧ alookup (colDocs [("a", [("1", [])])] "a") "2" = none
    ∧ removed [("a", [("1", [])])] "a" "2" = [("a", [("1", [])])] :=
  ⟨inv_of_entries _ (by decide), by decide,
   C10_removed_noop_on_missing _ "a" "2" (inv_of_entries _ (by decide)) (by decide)⟩

/-- C10, counterexample to the claim as stated over all states: the
reachable state `changed([], 'c', '1', {})` holds collection `c` as a
present-but-empty entry (no document at any id); `removed('c','2')` on
it deletes that entry, so the state is not left exactly equal. -/
theorem C10_counterexample :
    changed [] "c" "1" [] = [("c", ([] : Collection))]
    ∧ alookup (colDocs [("c", ([] : Collection))] "c") "2" = none
    ∧ removed [("c", ([] : Collection))] "c" "2" = ([] : DocsState)
    ∧ ([] : DocsState) ≠ [("c", ([] : Collection))] := by decide

end PubColl
